import Mathlib

/-!
Verification of the `tezos-delegation` ingestion engine
(`internal/sync/sync.go`) against its natural-language specification.

Shallow embedding conventions:
* `time.Time` instants and `time.Duration` values are modelled as `Int`
  nanoseconds (Go stores both as 64-bit nanosecond counts; no claim here
  exercises 64-bit overflow).  Go's truncated integer division on
  durations is `Int.tdiv`.
* The wire format handed to `decodeDelegations` is modelled by a `Json`
  tree; numbers are restricted to integers, which covers every field of
  the upstream contract (`amount`, `level`, `id` are JSON integers).
* Fallible Go calls returning `(T, error)` are modelled as
  `Except String T`; a call returning only `error` as `Option String`
  (`none` = nil error).
* The network and the store are oracles passed in as functions; the
  synchronizer models record which requests were issued so that claims
  about issued requests are statable.
-/

/-- The domain record (`tds.Delegation`, the sole entity). -/
structure Delegation where
  timestamp : String
  delegator : String
  amount : String
  level : String
  id : String
deriving Repr, DecidableEq

/-- A JSON value, as far as the upstream wire format needs: numbers are
integers (`amount`, `level`, `id` are JSON integers in the upstream
contract; fractional numbers would fail Go's unmarshal into `int` and are
not exercised by any claim). -/
inductive Json where
  | null : Json
  | bool : Bool → Json
  | num : Int → Json
  | str : String → Json
  | arr : List Json → Json
  | obj : List (String × Json) → Json

/-- The wire struct `responseDelegation` from `sync.go`:
`{timestamp string, sender struct{address string}, amount/level/id int}`. -/
structure responseDelegation where
  timestamp : String
  senderAddress : String
  amount : Int
  level : Int
  id : Int
deriving Repr, DecidableEq

/-- Go's zero value for `responseDelegation` (struct fields start zeroed
before `dec.Decode(&d)`). -/
def emptyResponse : responseDelegation :=
  { timestamp := "", senderAddress := "", amount := 0, level := 0, id := 0 }

/-- `encoding/json` unmarshalling of one object member into the nested
`sender struct{ address string }`: a string sets `address`, `null` is a
no-op, any other type is an unmarshal type error; unknown keys are
ignored. -/
def setSenderField (d : responseDelegation) (kv : String × Json) :
    Except String responseDelegation :=
  if kv.fst = "address" then
    match kv.snd with
    | .str s => .ok { d with senderAddress := s }
    | .null => .ok d
    | _ => .error "json: cannot unmarshal value into field address of type string"
  else .ok d

/-- `encoding/json` unmarshalling of one object member into
`responseDelegation`: keys are matched to struct fields; a matched value
of the wrong JSON type is an unmarshal type error; `null` values are
no-ops; unknown keys are ignored; later duplicates overwrite (members are
processed in order). -/
def setField (d : responseDelegation) (kv : String × Json) :
    Except String responseDelegation :=
  if kv.fst = "timestamp" then
    match kv.snd with
    | .str s => .ok { d with timestamp := s }
    | .null => .ok d
    | _ => .error "json: cannot unmarshal value into field timestamp of type string"
  else if kv.fst = "sender" then
    match kv.snd with
    | .obj fs => fs.foldlM setSenderField d
    | .null => .ok d
    | _ => .error "json: cannot unmarshal value into field sender of type struct"
  else if kv.fst = "amount" then
    match kv.snd with
    | .num n => .ok { d with amount := n }
    | .null => .ok d
    | _ => .error "json: cannot unmarshal value into field amount of type int"
  else if kv.fst = "level" then
    match kv.snd with
    | .num n => .ok { d with level := n }
    | .null => .ok d
    | _ => .error "json: cannot unmarshal value into field level of type int"
  else if kv.fst = "id" then
    match kv.snd with
    | .num n => .ok { d with id := n }
    | .null => .ok d
    | _ => .error "json: cannot unmarshal value into field id of type int"
  else .ok d

/-- One `dec.Decode(&d)` step of the element loop: a JSON object is
unmarshalled member by member into the zero struct, `null` leaves the
zero struct, and any other JSON value is an unmarshal type error. -/
def decodeElem (j : Json) : Except String responseDelegation :=
  match j with
  | .obj fs => fs.foldlM setField emptyResponse
  | .null => .ok emptyResponse
  | _ => .error "json: cannot unmarshal value into responseDelegation"

/-- The per-element conversion done in `decodeDelegations`'s append:
flatten `sender.address` into `delegator` and render the three integer
fields with `strconv.Itoa` (decimal, Lean's `toString` on `Int`). -/
def toDelegation (d : responseDelegation) : Delegation :=
  { timestamp := d.timestamp
    delegator := d.senderAddress
    amount := toString d.amount
    level := toString d.level
    id := toString d.id }

/-- The element loop of `decodeDelegations`: decode elements in order,
appending the converted record; the first failing element aborts the
whole call (`return nil, err`), so no partial slice is produced. -/
def decodeList (es : List Json) : Except String (List Delegation) :=
  match es with
  | [] => .ok []
  | e :: rest =>
    match decodeElem e with
    | .error m => .error m
    | .ok d =>
      match decodeList rest with
      | .error m => .error m
      | .ok ds => .ok (toDelegation d :: ds)

/-- `decodeDelegations(raw, capacity)` over the parsed body.  The Go code
reads ONE token (`dec.Token()`) without inspecting it, then loops on
`dec.More()`:
* an array: the token is `[` and the loop decodes the elements;
* a non-empty object: the token is `\x7b`, `More()` sees the first key,
  and `Decode` fails unmarshalling that key (a JSON string) into the
  struct;
* an empty object: the token is `\x7b`, `More()` peeks `\x7d` and stops —
  success with zero records;
* any primitive value (`null`, bool, number, string): the token is the
  value itself, `More()` finds no further input — success with zero
  records.
`capacity` only pre-sizes the Go slice and does not affect the result. -/
def decodeDelegations (j : Json) (capacity : Int) : Except String (List Delegation) :=
  let _ := capacity
  match j with
  | .arr es => decodeList es
  | .obj [] => .ok []
  | .obj (_ :: _) =>
    .error "json: cannot unmarshal string into Go value of type responseDelegation"
  | _ => .ok []

/-- The canonical wire element of the upstream contract:
`(timestamp, sender.address, amount, level, id)` before JSON encoding. -/
structure WireDelegation where
  timestamp : String
  address : String
  amount : Int
  level : Int
  id : Int
deriving Repr, DecidableEq

/-- JSON encoding of a canonical wire element
`(timestamp, sender:(address), amount, level, id)`. -/
def wireJson (w : WireDelegation) : Json :=
  .obj [("timestamp", .str w.timestamp),
        ("sender", .obj [("address", .str w.address)]),
        ("amount", .num w.amount),
        ("level", .num w.level),
        ("id", .num w.id)]

/-- The intermediate wire struct a canonical element decodes to. -/
def wireResp (w : WireDelegation) : responseDelegation :=
  { timestamp := w.timestamp
    senderAddress := w.address
    amount := w.amount
    level := w.level
    id := w.id }

/-- The domain record a canonical wire element maps to: `sender.address`
flattened into `delegator`, integers rendered in decimal. -/
def wireToDomain (w : WireDelegation) : Delegation :=
  { timestamp := w.timestamp
    delegator := w.address
    amount := toString w.amount
    level := toString w.level
    id := toString w.id }

/-- A sample wire element (the first record of the repository's test
vector). -/
def sampleWire : WireDelegation :=
  { timestamp := "2024-10-29T10:22:25Z"
    address := "tz1L6FGN8F2o3j8CsGCoktiFDdDLkbECEDms"
    amount := 13814013
    level := 6976378
    id := 1401626186219520 }

example : decodeElem (wireJson sampleWire) = .ok (wireResp sampleWire) := rfl

example : decodeDelegations (.num 5) 0 = .ok [] := rfl

example : decodeDelegations (.obj [("a", .num 1)]) 0 =
    .error "json: cannot unmarshal string into Go value of type responseDelegation" := rfl

/-! ## Fetcher (`getOpts`, `getDelegations`) -/

/-- `getOpts` from `sync.go`: optional time filters and page size. -/
structure getOpts where
  tsGe : String
  tsLt : String
  limit : Int
deriving Repr, DecidableEq

/-- The query parameters `getDelegations` adds to the request
(`q.Add` calls, in program order; `q.Encode()` serialises exactly this
multimap, so presence of a parameter in the encoded query string is
membership in this list). -/
def buildQuery (opts : getOpts) : List (String × String) :=
  [("select", "timestamp,sender,amount,level,id")]
  ++ (if opts.tsGe ≠ "" then [("timestamp.ge", opts.tsGe)] else [])
  ++ (if opts.tsLt ≠ "" then [("timestamp.lt", opts.tsLt)] else [])
  ++ (if opts.limit > 0 then [("limit", toString opts.limit)] else [])

/-- The `getDelegations` error taxonomy:
transport errors propagate unwrapped, a non-200 status wraps
`ErrInvalidStatusCode` together with the observed code
(`fmt.Errorf("%w : %d", ErrInvalidStatusCode, resp.StatusCode)`), and
decoder failures are returned as such. -/
inductive FetchErr where
  | transport : String → FetchErr
  | invalidStatusCode : Int → FetchErr
  | decodeFailure : String → FetchErr
deriving Repr, DecidableEq

/-- The tail of `getDelegations` once a response has arrived: if
`resp.StatusCode != http.StatusOK` (200) the invalid-status error is
returned at once; only otherwise is the body handed to
`decodeDelegations` with the limit as capacity hint. -/
def handleResponse (statusCode : Int) (body : Json) (limit : Int) :
    Except FetchErr (List Delegation) :=
  if statusCode ≠ 200 then .error (.invalidStatusCode statusCode)
  else
    match decodeDelegations body limit with
    | .error m => .error (.decodeFailure m)
    | .ok ds => .ok ds

/-! ## Go string comparison and the date layout -/

/-- Go's `<` on strings: lexicographic byte comparison.  Codepoint
comparison coincides with UTF-8 byte comparison, and every string the
engine compares is ASCII. -/
def goLt : List Char → List Char → Bool
  | [], [] => false
  | [], _ :: _ => true
  | _ :: _, [] => false
  | a :: as, b :: bs =>
    if a.toNat < b.toNat then true
    else if b.toNat < a.toNat then false
    else goLt as bs

/-- `a < b` on Go strings (so Go's `last > to` is `goStringLt to last`). -/
def goStringLt (a b : String) : Bool := goLt a.data b.data

/-- Decimal value of an ASCII digit. -/
def dval (c : Char) : Int := (c.toNat : Int) - 48

/-- ASCII digit test. -/
def isDigitChar (c : Char) : Bool := 48 ≤ c.toNat && c.toNat ≤ 57

/-- Gregorian leap-year rule (as in Go's `time` package). -/
def isLeap (y : Int) : Bool :=
  y % 4 == 0 && (y % 100 != 0 || y % 400 == 0)

/-- Days in a month, used by Go's `Parse` to validate the day field. -/
def daysInMonth (m y : Int) : Int :=
  if m = 2 then (if isLeap y then 29 else 28)
  else if m = 4 ∨ m = 6 ∨ m = 9 ∨ m = 11 then 30
  else 31

/-- Days since 1970-01-01 of a civil date (proleptic Gregorian); the
standard era-based computation used to turn a parsed calendar date into
an epoch instant. -/
def daysFromCivil (y m d : Int) : Int :=
  let yy := if m ≤ 2 then y - 1 else y
  let era := Int.fdiv yy 400
  let yoe := yy - era * 400
  let doy := Int.tdiv (153 * (m + (if m > 2 then -3 else 9)) + 2) 5 + d - 1
  let doe := yoe * 365 + Int.tdiv yoe 4 - Int.tdiv yoe 100 + doy
  era * 146097 + doe - 719468

/-- Go's `getnum(value, false)` for the layout chunk `15` (`stdHour`,
NOT zero-padded-fixed): one digit, or two when the second character is
also a digit. -/
def parseHour12 : List Char → Option (Int × List Char)
  | a :: b :: rest =>
    if isDigitChar a then
      if isDigitChar b then some (10 * dval a + dval b, rest)
      else some (dval a, b :: rest)
    else none
  | [a] => if isDigitChar a then some (dval a, []) else none
  | [] => none

/-- `time.Parse`'s documented special case after the seconds field: a
fractional second in the INPUT (`.` or `,` followed by one or more
digits) is consumed even though the layout contains none.  All digits of
the run are consumed; the first nine give the nanoseconds, scaled up by
the missing places (`parseNanoseconds` truncates the value to nine
fractional digits).  Returns `(nanoseconds, rest)`; with no fractional
second present, `(0, input)`. -/
def parseFrac (cs : List Char) : Int × List Char :=
  match cs with
  | sep :: d :: rest =>
    if (sep = '.' || sep = ',') && isDigitChar d then
      let digits := d :: rest.takeWhile isDigitChar
      let kept := digits.take 9
      let ns := kept.foldl (fun acc c => 10 * acc + dval c) 0
      (ns * (10 : Int) ^ (9 - kept.length), rest.dropWhile isDigitChar)
    else (0, cs)
  | _ => (0, cs)

/-- `time.Parse(dateFormat, s)` for the fixed layout
`dateFormat = "2006-01-02T15:04:05Z"` (`sync.go` line 44).  The trailing
`Z` in this layout is a LITERAL character (only `Z07:00`-style sequences
denote an offset in Go layouts), so no numeric offsets are accepted.
Following Go's parse loop chunk by chunk: a four-digit year, literal
`-`, two-digit month, literal `-`, two-digit day, literal `T`, a one- OR
two-digit hour (`stdHour` parses with `getnum(value, false)`), literal
`:`, two-digit minute, literal `:`, two-digit second, an optional input
fractional second (`parseFrac`), then the literal `Z` and end of input;
with month 1–12, day valid for the month, hour ≤ 23, minute and second
≤ 59.  The result is the instant as nanoseconds since the Unix epoch
(the parsed wall clock is UTC). -/
def parseDate (s : String) : Except String Int :=
  match s.data with
  | y1 :: y2 :: y3 :: y4 :: '-' :: o1 :: o2 :: '-' :: d1 :: d2 :: 'T' :: rest =>
    if [y1, y2, y3, y4, o1, o2, d1, d2].all isDigitChar then
      let y := 1000 * dval y1 + 100 * dval y2 + 10 * dval y3 + dval y4
      let m := 10 * dval o1 + dval o2
      let d := 10 * dval d1 + dval d2
      match parseHour12 rest with
      | some (hh, rest1) =>
        match rest1 with
        | ':' :: i1 :: i2 :: ':' :: c1 :: c2 :: rest2 =>
          if [i1, i2, c1, c2].all isDigitChar then
            let mi := 10 * dval i1 + dval i2
            let sc := 10 * dval c1 + dval c2
            match parseFrac rest2 with
            | (ns, ['Z']) =>
              if 1 ≤ m ∧ m ≤ 12 ∧ 1 ≤ d ∧ d ≤ daysInMonth m y ∧
                  hh ≤ 23 ∧ mi ≤ 59 ∧ sc ≤ 59 then
                .ok ((daysFromCivil y m d * 86400 + hh * 3600 + mi * 60 + sc)
                      * 1000000000 + ns)
              else .error ("parsing time " ++ s ++ ": value out of range")
            | _ =>
              .error ("parsing time " ++ s ++ " as 2006-01-02T15:04:05Z: cannot parse")
          else .error ("parsing time " ++ s ++ " as 2006-01-02T15:04:05Z: cannot parse")
        | _ => .error ("parsing time " ++ s ++ " as 2006-01-02T15:04:05Z: cannot parse")
      | none => .error ("parsing time " ++ s ++ " as 2006-01-02T15:04:05Z: cannot parse")
    else .error ("parsing time " ++ s ++ " as 2006-01-02T15:04:05Z: cannot parse")
  | _ => .error ("parsing time " ++ s ++ " as 2006-01-02T15:04:05Z: cannot parse")

example : parseDate ("1970-01-01T00:00:00Z") = .ok 0 := rfl

example : parseDate ("2024-10-29T9:22:25Z") = .ok 1730193745000000000 := rfl

example : parseDate ("2024-10-29T10:22:25.123Z") = .ok 1730197345123000000 := rfl

example : parseDate ("2024-10-29T10:22:25,0005Z") = .ok 1730197345000500000 := rfl

example : (parseDate ("2024-10-29T10:22:25+00:00")).isOk = false := rfl

/-! ## RFC3339 validity (spec-side notion)

The spec and claim C9 quantify over "valid RFC3339 timestamps".  The
following definition follows the words of RFC3339's `date-time` grammar
(`full-date "T" full-time`, `T`/`Z` case-insensitive, optional fractional
seconds, `time-offset = "Z" / time-numoffset`), to compare against the
code's actual layout `parseDate`. -/

/-- RFC3339 `time-offset`: `Z`, `z`, or a signed `hh:mm` numeric offset
with hour ≤ 23 and minute ≤ 59. -/
def rfcOffsetValid : List Char → Bool
  | ['Z'] => true
  | ['z'] => true
  | [sg, h1, h2, ':', m1, m2] =>
    (sg = '+' || sg = '-') && [h1, h2, m1, m2].all isDigitChar &&
    10 * dval h1 + dval h2 ≤ 23 && 10 * dval m1 + dval m2 ≤ 59
  | _ => false

/-- RFC3339 optional `time-secfrac` (a dot and one or more digits)
followed by the offset. -/
def rfcFracOffset : List Char → Bool
  | '.' :: rest =>
    (rest.takeWhile isDigitChar).length ≥ 1 &&
    rfcOffsetValid (rest.dropWhile isDigitChar)
  | cs => rfcOffsetValid cs

/-- RFC3339 `partial-time time-offset`: `hh:mm:ss` with hour ≤ 23,
minute ≤ 59, second ≤ 60 (leap second allowed), then optional fraction
and the offset. -/
def rfcTimeValid : List Char → Bool
  | h1 :: h2 :: ':' :: i1 :: i2 :: ':' :: c1 :: c2 :: rest =>
    [h1, h2, i1, i2, c1, c2].all isDigitChar &&
    10 * dval h1 + dval h2 ≤ 23 && 10 * dval i1 + dval i2 ≤ 59 &&
    10 * dval c1 + dval c2 ≤ 60 &&
    rfcFracOffset rest
  | _ => false

/-- RFC3339 `date-time` validity: `full-date` (with calendar-valid month
and day) then `T` (case-insensitive) then `full-time`. -/
def rfc3339Valid (s : String) : Bool :=
  match s.data with
  | y1 :: y2 :: y3 :: y4 :: '-' :: o1 :: o2 :: '-' :: d1 :: d2 :: t :: rest =>
    (t = 'T' || t = 't') &&
    [y1, y2, y3, y4, o1, o2, d1, d2].all isDigitChar &&
    (let y := 1000 * dval y1 + 100 * dval y2 + 10 * dval y3 + dval y4
     let m := 10 * dval o1 + dval o2
     let d := 10 * dval d1 + dval d2
     1 ≤ m && m ≤ 12 && 1 ≤ d && d ≤ daysInMonth m y) &&
    rfcTimeValid rest
  | _ => false

example : rfc3339Valid ("2024-10-29T10:22:25+00:00") = true := rfl

example : rfc3339Valid ("2024-10-29T10:22:25Z") = true := rfl

/-! ## Live synchronizer -/

/-- `ErrNoInterval = errors.New("no interval")`. -/
def ErrNoInterval : String := "no interval"

/-- The `Live` synchronizer state the poll step reads and writes:
`interval` (nanoseconds), `last` (`lastSyncTime`, nanoseconds since
epoch) and the upper-bound override `to`.  The `api` URL, contexts,
ticker and stop channel play no role in the claims' data flow. -/
structure Live where
  interval : Int
  last : Int
  toStr : String
deriving Repr, DecidableEq

/-- The lower bound of the poll window, exactly as computed in
`Live.sync`: `l.last.Add(-(l.interval / 5))` — duration division is
Go's truncated integer division. -/
def liveFetchBound (l : Live) : Int :=
  l.last + -(Int.tdiv l.interval 5)

/-- One poll step (`Live.sync`).  `fetch lo hi` is the oracle for
`getDelegations` with `timestamp.ge` the instant `lo` (the code formats
it with `dateFormat`; the rendering is injective on instants and is not
itself at issue) and `timestamp.lt` the string `hi`; `insert` is the
oracle for `store.Insert` (`none` = nil error).  Returns the state after
the step and the step's returned error.  Mirrors the source order: a
fetch error returns at once (BEFORE `l.last = time.Now()`); on fetch
success `last` is set to `now`, then the empty-page check, then the
insert whose error is the step's result. -/
def live_sync (l : Live) (now : Int)
    (fetch : Int → String → Except String (List Delegation))
    (insert : List Delegation → Option String) : Live × Option String :=
  match fetch (liveFetchBound l) l.toStr with
  | .error e => (l, some e)
  | .ok dels =>
    let l1 : Live := { l with last := now }
    if dels.length = 0 then (l1, none)
    else (l1, insert dels)

/-- The outcome of `Live.Sync` (Start): the returned error, whether the
background polling goroutine was spawned, how many fetches were
attempted, and the final state. -/
structure StartResult where
  err : Option String
  spawned : Bool
  fetches : Nat
  state : Live
deriving Repr, DecidableEq

/-- The tail of `Live.Sync` after `lastSyncTime` is resolved: the one
synchronous first poll; its failure fails `Sync` with no goroutine
spawned, its success spawns the background task. -/
def liveAfterStart (l : Live) (now2 : Int)
    (fetch : Int → String → Except String (List Delegation))
    (insert : List Delegation → Option String) : StartResult :=
  match live_sync l now2 fetch insert with
  | (l2, some e) => { err := some e, spawned := false, fetches := 1, state := l2 }
  | (l2, none) => { err := none, spawned := true, fetches := 1, state := l2 }

/-- `Live.Sync(ctx, from)` (Start).  Mirrors the source order: the
zero-interval guard first (before any other effect), then
`l.last = time.Now()` (`now`), then the optional `from` parse
(`time.Parse(dateFormat, from)`; failure returns that error with no
fetch), then the synchronous first poll and the spawn.  `now2` is the
`time.Now()` observed inside the first poll. -/
def live_Sync (l : Live) (now now2 : Int) (fromArg : String)
    (fetch : Int → String → Except String (List Delegation))
    (insert : List Delegation → Option String) : StartResult :=
  if l.interval = 0 then
    { err := some ErrNoInterval, spawned := false, fetches := 0, state := l }
  else
    let l1 : Live := { l with last := now }
    if fromArg = "" then liveAfterStart l1 now2 fetch insert
    else
      match parseDate fromArg with
      | .error e => { err := some e, spawned := false, fetches := 0, state := l1 }
      | .ok t => liveAfterStart { l1 with last := t } now2 fetch insert

/-! ## History synchronizer -/

/-- First delegation event from tzkt's API (`sync.go` line 151). -/
def firstDelegation : String := "2018-06-30T19:30:27Z"

/-- `History.batch` given the fetch result and the insert oracle: a
fetch error is wrapped "failed to get delegations", an insert error
"failed to insert delegations"; a page of fewer than 10000 records
reports no next cursor (`""`), a full page reports the timestamp of its
LAST record (`delegations[len(delegations)-1].Timestamp`; the `none`
branch of `getLast?` is unreachable there since the page has 10000
elements). -/
def historyBatch (fetchRes : Except String (List Delegation))
    (insert : List Delegation → Option String) : Except String String :=
  match fetchRes with
  | .error e => .error ("failed to get delegations: " ++ e)
  | .ok dels =>
    match insert dels with
    | some e => .error ("failed to insert delegations: " ++ e)
    | none =>
      if dels.length < 10000 then .ok ""
      else
        match dels.getLast? with
        | some d => .ok d.timestamp
        | none => .ok ""

/-- Outcome of the backfill loop: `ok` — `Sync` returned nil after the
exhaustion/upper-bound check; `fail e` — `Sync` returned the error `e`;
`pending f` — the supplied fetch oracle ran out of pages while the loop
would issue its next request with lower bound `f` (the loop itself never
stops for this reason). -/
inductive HOut where
  | ok : HOut
  | fail : String → HOut
  | pending : String → HOut
deriving Repr, DecidableEq

/-- The `for` loop of `History.Sync`, driven by the successive fetch
results `pages` (one entry per upstream call, in order).  Returns the
list of lower bounds (`from`) actually fetched — the fetch log — and the
outcome.  A batch error is fatal; a batch reporting cursor `""`, or a
cursor `last` with `last > to` (Go string comparison), ends the loop
cleanly; otherwise the cursor becomes the next `from`.  (The
`ctx.Done()` check at the top of the loop is cooperative cancellation,
not exercised by any claim; this model runs uncancelled.) -/
def history_loop (insert : List Delegation → Option String) (toArg : String) :
    String → List (Except String (List Delegation)) → List String × HOut
  | f, [] => ([], .pending f)
  | f, pr :: rest =>
    match historyBatch pr insert with
    | .error e => ([f], .fail e)
    | .ok last =>
      if last == "" || goStringLt toArg last then ([f], .ok)
      else
        let r := history_loop insert toArg last rest
        (f :: r.fst, r.snd)

/-- `History.Sync(ctx, from, to)`.  `lastDel` is the oracle for
`store.LastDelegation` (`.ok none` = empty store, not an error);
`nowStr` is `time.Now().Format(dateFormat)` at call time.  An empty
`from` is resolved from the store: the most recent record's timestamp if
one exists, else the `firstDelegation` epoch; a `LastDelegation` error
is returned (wrapped) before any batch is fetched.  An empty `to`
defaults to `nowStr`. -/
def history_Sync (lastDel : Except String (Option Delegation))
    (nowStr fromArg toArg : String)
    (insert : List Delegation → Option String)
    (pages : List (Except String (List Delegation))) : List String × HOut :=
  match (if fromArg = "" then
           match lastDel with
           | .error e => Except.error ("failed to get last delegation: " ++ e)
           | .ok (some d) => Except.ok d.timestamp
           | .ok none => Except.ok firstDelegation
         else Except.ok fromArg) with
  | .error e => ([], .fail e)
  | .ok f => history_loop insert (if toArg = "" then nowStr else toArg) f pages



/-! ## Concrete fixtures used by witnesses and counterexamples -/

/-- A live synchronizer state with a 10 ns interval. -/
def liveW : Live := { interval := 10, last := 0, toStr := "" }

/-- A live synchronizer state with the zero interval. -/
def liveZeroW : Live := { interval := 0, last := 0, toStr := "" }

/-- A fetch oracle returning an empty page everywhere. -/
def fetchEmpty : Int → String → Except String (List Delegation) :=
  fun _ _ => .ok []

/-- A fetch oracle returning an empty page only at `liveW`'s poll window
lower bound `0 - 10/5 = -2`. -/
def fetchEmptyAt : Int → String → Except String (List Delegation) :=
  fun lo _ => if lo = -2 then .ok [] else .error "unexpected window"

/-- A fetch oracle that always fails. -/
def fetchFail : Int → String → Except String (List Delegation) :=
  fun _ _ => .error "fetch failed"

/-- An insert oracle that always succeeds. -/
def insertOk : List Delegation → Option String := fun _ => none

/-- The domain record of `sampleWire`. -/
def sampleDelegation : Delegation := wireToDomain sampleWire

/-- A full page of exactly 10000 records whose last record is
`sampleDelegation`. -/
def bigPage : List Delegation :=
  List.replicate 9999 sampleDelegation ++ [sampleDelegation]

/-! ## Helper lemmas -/

theorem decodeElem_wire (w : WireDelegation) :
    decodeElem (wireJson w) = .ok (wireResp w) := rfl

theorem decodeList_map_wire (ws : List WireDelegation) :
    decodeList (ws.map wireJson) = .ok (ws.map wireToDomain) := by
  induction ws with
  | nil => rfl
  | cons w rest ih =>
    rw [List.map_cons, List.map_cons]
    simp only [decodeList, decodeElem_wire, ih]
    rfl

theorem decodeList_error_of_mem (es : List Json) (e : Json) (m : String)
    (he : e ∈ es) (hm : decodeElem e = .error m) :
    ∃ m2, decodeList es = .error m2 := by
  induction es with
  | nil => cases he
  | cons a rest ih =>
    cases he with
    | head => exact ⟨m, by unfold decodeList; rw [hm]⟩
    | tail _ hmem =>
      obtain ⟨m2, hm2⟩ := ih hmem
      unfold decodeList
      cases h : decodeElem a with
      | error m3 => exact ⟨m3, rfl⟩
      | ok d => rw [hm2]; exact ⟨m2, rfl⟩

/-! ## Claim theorems -/

/-- Claim C4: decoding a well-formed JSON array of N wire elements yields
exactly N domain records, in input order, with `sender.address` mapped to
`delegator` and `amount`, `level`, `id` rendered as decimal strings
(`wireToDomain`); and an array containing a malformed element fails with
an error — the error result carries no partial slice of already-decoded
records (the code's `return nil, err`). -/
theorem decoder_array_spec (ws : List WireDelegation) (capacity : Int) :
    (decodeDelegations (.arr (ws.map wireJson)) capacity = .ok (ws.map wireToDomain) ∧
     (ws.map wireToDomain).length = (ws.map wireJson).length) ∧
    ∀ (es : List Json) (e : Json) (m : String), e ∈ es → decodeElem e = .error m →
      ∃ m2, decodeDelegations (.arr es) capacity = .error m2 := by
  refine ⟨⟨decodeList_map_wire ws, by simp⟩, ?_⟩
  intro es e m he hm
  exact decodeList_error_of_mem es e m he hm

theorem decoder_array_spec_witness :
    decodeDelegations (.arr ([wireJson sampleWire])) 10000 = .ok ([wireToDomain sampleWire]) ∧
    ∃ m2, decodeDelegations (.arr ([Json.str ("boom")])) 10000 = .error m2 :=
  ⟨(decoder_array_spec [sampleWire] 10000).1.1,
   (decoder_array_spec [] 10000).2 [Json.str ("boom")] (Json.str ("boom"))
     ("json: cannot unmarshal value into responseDelegation") (by simp) rfl⟩

/-- Claim C5 counterexample: the claim says every stream not beginning
with a JSON array — "for example one beginning with an object, a number,
or a string" — fails with a `DecodeError`; but on the stream consisting
of the number `5` the decoder returns SUCCESS with zero records: the
single `dec.Token()` call consumes the number without checking it opens
an array, and `dec.More()` then finds no element to decode. -/
theorem decoder_nonarray_claim_false :
    decodeDelegations (.num 5) 10000 = .ok [] ∧
    ∀ m, decodeDelegations (.num 5) 10000 ≠ .error m :=
  ⟨rfl, fun _ h => Except.noConfusion h⟩

/-- Claim C5 amended: the decoder never checks that the first token opens
an array.  A stream consisting of a primitive value (number, string,
boolean, null) or an empty object is accepted with an empty record list;
only a stream beginning with a non-empty JSON object fails (while
decoding its first key as an element). -/
theorem decoder_nonarray_amended (capacity : Int) :
    (∀ n, decodeDelegations (.num n) capacity = .ok []) ∧
    (∀ s, decodeDelegations (.str s) capacity = .ok []) ∧
    (∀ b, decodeDelegations (.bool b) capacity = .ok []) ∧
    decodeDelegations .null capacity = .ok [] ∧
    decodeDelegations (.obj []) capacity = .ok [] ∧
    ∀ kv fs, ∃ m, decodeDelegations (.obj (kv :: fs)) capacity = .error m :=
  ⟨fun _ => rfl, fun _ => rfl, fun _ => rfl, rfl, rfl, fun _ _ => ⟨_, rfl⟩⟩

/-- Claim C6: for every `(from, to, limit)` option combination, the
request's query parameters are the fixed field projection plus exactly
those filters whose option was non-empty (`timestamp.ge`, `timestamp.lt`)
or strictly positive (`limit`), each carrying that option's value — and
nothing else. -/
theorem fetcher_query_spec (opts : getOpts) (v : String) :
    ("select", "timestamp,sender,amount,level,id") ∈ buildQuery opts ∧
    (("timestamp.ge", v) ∈ buildQuery opts ↔ opts.tsGe ≠ "" ∧ v = opts.tsGe) ∧
    (("timestamp.lt", v) ∈ buildQuery opts ↔ opts.tsLt ≠ "" ∧ v = opts.tsLt) ∧
    (("limit", v) ∈ buildQuery opts ↔ opts.limit > 0 ∧ v = toString opts.limit) ∧
    (∀ k v2, (k, v2) ∈ buildQuery opts →
      k = "select" ∨ k = "timestamp.ge" ∨ k = "timestamp.lt" ∨ k = "limit") := by
  unfold buildQuery
  by_cases h1 : opts.tsGe = "" <;> by_cases h2 : opts.tsLt = "" <;>
    by_cases h3 : opts.limit > 0 <;>
    simp [h1, h2, h3, Prod.ext_iff, eq_comm] <;> tauto

theorem fetcher_query_spec_witness :
    (("select", "timestamp,sender,amount,level,id") ∈
       buildQuery { tsGe := "2018-06-30T19:30:27Z", tsLt := "", limit := 10000 }) ∧
    ((("timestamp.ge", "2018-06-30T19:30:27Z") ∈
       buildQuery { tsGe := "2018-06-30T19:30:27Z", tsLt := "", limit := 10000 }) ↔
       ("2018-06-30T19:30:27Z" : String) ≠ "" ∧
       ("2018-06-30T19:30:27Z" : String) = "2018-06-30T19:30:27Z") :=
  ⟨(fetcher_query_spec { tsGe := "2018-06-30T19:30:27Z", tsLt := "", limit := 10000 }
      ("2018-06-30T19:30:27Z")).1,
   (fetcher_query_spec { tsGe := "2018-06-30T19:30:27Z", tsLt := "", limit := 10000 }
      ("2018-06-30T19:30:27Z")).2.1⟩

/-- Claim C7: a response whose status code is not 200 always yields the
error wrapping `ErrInvalidStatusCode` together with the observed code,
whatever the body holds — and the result does not depend on the body at
all, i.e. no decoding of the body is attempted. -/
theorem fetcher_status_spec (statusCode : Int) (body body2 : Json) (limit : Int)
    (h : statusCode ≠ 200) :
    handleResponse statusCode body limit = .error (.invalidStatusCode statusCode) ∧
    handleResponse statusCode body limit = handleResponse statusCode body2 limit := by
  unfold handleResponse
  rw [if_pos h, if_pos h]
  exact ⟨rfl, rfl⟩

theorem fetcher_status_spec_witness :
    handleResponse 404 (.arr ([wireJson sampleWire])) 0 =
      .error (.invalidStatusCode 404) ∧
    handleResponse 404 (.arr ([wireJson sampleWire])) 0 = handleResponse 404 .null 0 :=
  fetcher_status_spec 404 (.arr ([wireJson sampleWire])) .null 0 (by decide)

/-- Claim C2: every live poll fetches with lower bound (the
`timestamp.ge` instant) exactly `T − I/5` for last-sync time `T` and
interval `I` — the window extends backward by one fifth of the interval
— and the poll step's behaviour depends on the fetch oracle only through
its value at that lower bound and the configured upper bound. -/
theorem live_poll_window_spec (l : Live) (now : Int)
    (f g : Int → String → Except String (List Delegation))
    (insert : List Delegation → Option String)
    (h : f (l.last - Int.tdiv l.interval 5) l.toStr =
         g (l.last - Int.tdiv l.interval 5) l.toStr) :
    liveFetchBound l = l.last - Int.tdiv l.interval 5 ∧
    live_sync l now f insert = live_sync l now g insert := by
  have hb : liveFetchBound l = l.last - Int.tdiv l.interval 5 := by
    unfold liveFetchBound
    ring
  refine ⟨hb, ?_⟩
  unfold live_sync
  rw [hb, h]

theorem live_poll_window_spec_witness :
    liveFetchBound liveW = liveW.last - Int.tdiv liveW.interval 5 ∧
    live_sync liveW 5 fetchEmpty insertOk = live_sync liveW 5 fetchEmptyAt insertOk :=
  live_poll_window_spec liveW 5 fetchEmpty fetchEmptyAt insertOk rfl

/-- Claim C3 counterexample: the claim says `lastSyncTime` is advanced
to "now" after the fetch attempt both on success AND on failure; but
`Live.sync` returns a fetch error BEFORE the `l.last = time.Now()`
assignment, so with `last = 0`, `now = 5` and a failing fetch the poll
step leaves `lastSyncTime` at 0 — the repository's own
`Test_Live_Sync_date` asserts exactly this (after a failed first poll,
`s.last` still equals the provided date). -/
theorem live_last_advance_claim_false :
    (live_sync liveW 5 fetchFail insertOk).fst.last = 0 ∧
    ¬ (live_sync liveW 5 fetchFail insertOk).fst.last = 5 :=
  ⟨rfl, by decide⟩

/-- Claim C3 amended: in every live poll step, `lastSyncTime` is
advanced to "now" immediately after a SUCCESSFUL fetch — before checking
whether any records were returned, so also on an empty page and also
when the subsequent insert fails — but on fetch failure the step returns
the fetch error with the state unchanged. -/
theorem live_last_advance_amended (l : Live) (now : Int)
    (f : Int → String → Except String (List Delegation))
    (insert : List Delegation → Option String) :
    (∀ dels, f (liveFetchBound l) l.toStr = .ok dels →
       (live_sync l now f insert).fst.last = now) ∧
    (∀ e, f (liveFetchBound l) l.toStr = .error e →
       live_sync l now f insert = (l, some e)) := by
  constructor
  · intro dels h
    cases dels with
    | nil => simp [live_sync, h]
    | cons a as => simp [live_sync, h]
  · intro e h
    simp [live_sync, h]

theorem live_last_advance_amended_witness :
    (live_sync liveW 5 fetchEmpty insertOk).fst.last = 5 ∧
    live_sync liveW 5 fetchFail insertOk = (liveW, some ("fetch failed")) :=
  ⟨(live_last_advance_amended liveW 5 fetchEmpty insertOk).1 [] rfl,
   (live_last_advance_amended liveW 5 fetchFail insertOk).2 ("fetch failed") rfl⟩

/-- Claim C8: if the configured interval is zero, `Live.Sync` (Start)
returns `ErrNoInterval`, spawns no background polling task and attempts
no fetch — the guard is the first statement of the function. -/
theorem live_start_no_interval (l : Live) (now now2 : Int) (fromArg : String)
    (f : Int → String → Except String (List Delegation))
    (insert : List Delegation → Option String)
    (h : l.interval = 0) :
    live_Sync l now now2 fromArg f insert =
      { err := some ErrNoInterval, spawned := false, fetches := 0, state := l } := by
  unfold live_Sync
  rw [if_pos h]

theorem live_start_no_interval_witness :
    live_Sync liveZeroW 1 2 ("") fetchEmpty insertOk =
      { err := some ErrNoInterval, spawned := false, fetches := 0, state := liveZeroW } :=
  live_start_no_interval liveZeroW 1 2 ("") fetchEmpty insertOk rfl

/-- Claim C9 counterexample: `2024-10-29T10:22:25+00:00` is a valid
RFC3339 timestamp (numeric UTC offset), yet `Start` returns a parse
error instead of initializing `lastSyncTime` to the parsed time: the
layout constant `2006-01-02T15:04:05Z` ends in a LITERAL `Z` (only
`Z07:00`-style layout sequences denote an offset in Go), so only
`Z`-suffixed UTC strings parse.  No fetch is attempted and `last` keeps
the "now" default (3). -/
theorem live_start_from_rfc3339_false :
    rfc3339Valid ("2024-10-29T10:22:25+00:00") = true ∧
    (live_Sync liveW 3 4 ("2024-10-29T10:22:25+00:00") fetchEmpty insertOk).err ≠ none ∧
    (live_Sync liveW 3 4 ("2024-10-29T10:22:25+00:00") fetchEmpty insertOk).fetches = 0 ∧
    (live_Sync liveW 3 4 ("2024-10-29T10:22:25+00:00") fetchEmpty insertOk).state.last = 3 :=
  ⟨rfl, by decide, rfl, rfl⟩

/-- Claim C9 amended: a non-empty `fromTimestamp` is parsed with
`time.Parse` against the fixed layout `2006-01-02T15:04:05Z`, whose
trailing `Z` is a literal: the accepted strings are the `Z`-suffixed UTC
timestamps with four-digit year, two-digit month, day, minute and
second, a one- or two-digit hour, and an optional fractional second.
For every string the layout accepts, execution continues into the first
poll from a state whose `lastSyncTime` is the parsed time; for every
string it rejects — including RFC3339 timestamps carrying a numeric
offset — `Start` returns the parse failure, with no fetch attempted and
no background task spawned. -/
theorem live_start_from_amended (l : Live) (now now2 : Int) (fromArg : String)
    (f : Int → String → Except String (List Delegation))
    (insert : List Delegation → Option String) (t : Int) (e : String)
    (hi : l.interval ≠ 0) (hf : fromArg ≠ "") :
    (parseDate fromArg = .ok t →
       live_Sync l now now2 fromArg f insert =
         liveAfterStart { l with last := t } now2 f insert) ∧
    (parseDate fromArg = .error e →
       live_Sync l now now2 fromArg f insert =
         { err := some e, spawned := false, fetches := 0,
           state := { l with last := now } }) := by
  constructor <;> intro h <;> simp [live_Sync, hi, hf, h]

theorem live_start_from_amended_witness :
    live_Sync liveW 3 4 ("2024-10-29T10:22:25Z") fetchEmpty insertOk =
      liveAfterStart { liveW with last := 1730197345000000000 } 4 fetchEmpty insertOk ∧
    live_Sync liveW 3 4 ("2024-10-29T9:22:25Z") fetchEmpty insertOk =
      liveAfterStart { liveW with last := 1730193745000000000 } 4 fetchEmpty insertOk ∧
    live_Sync liveW 3 4 ("2024-10-29T10:22:25.123Z") fetchEmpty insertOk =
      liveAfterStart { liveW with last := 1730197345123000000 } 4 fetchEmpty insertOk ∧
    live_Sync liveW 3 4 ("bogus") fetchEmpty insertOk =
      { err := some ("parsing time bogus as 2006-01-02T15:04:05Z: cannot parse"),
        spawned := false, fetches := 0, state := { liveW with last := 3 } } :=
  ⟨(live_start_from_amended liveW 3 4 ("2024-10-29T10:22:25Z") fetchEmpty insertOk
      1730197345000000000 ("x") (by decide) (by decide)).1 rfl,
   (live_start_from_amended liveW 3 4 ("2024-10-29T9:22:25Z") fetchEmpty insertOk
      1730193745000000000 ("x") (by decide) (by decide)).1 rfl,
   (live_start_from_amended liveW 3 4 ("2024-10-29T10:22:25.123Z") fetchEmpty insertOk
      1730197345123000000 ("x") (by decide) (by decide)).1 rfl,
   (live_start_from_amended liveW 3 4 ("bogus") fetchEmpty insertOk 0
      ("parsing time bogus as 2006-01-02T15:04:05Z: cannot parse")
      (by decide) (by decide)).2 rfl⟩

theorem bigPage_length : bigPage.length = 10000 := by
  rw [bigPage, List.length_append, List.length_replicate]
  rfl

theorem bigPage_getLast : bigPage.getLast? = some sampleDelegation := by
  rw [bigPage]
  exact List.getLast?_concat _

/-- Claim C1: for every page fetched by `History.batch` (with the insert
succeeding): a page of fewer than 10000 records reports no next cursor
(`""`) and the backfill loop returns cleanly right there; a page of
exactly 10000 records reports as next cursor the timestamp of the LAST
record of the page, and — unless that cursor is empty or exceeds the
fixed upper bound — the loop continues with that cursor as the next
lower bound `from`; and when the cursor is lexicographically greater
than the upper bound `to`, the loop also returns cleanly. -/
theorem history_batch_cursor_spec
    (insert : List Delegation → Option String) (toArg f : String)
    (dels : List Delegation) (rest : List (Except String (List Delegation)))
    (hins : insert dels = none) :
    (dels.length < 10000 →
       historyBatch (.ok dels) insert = .ok ("") ∧
       history_loop insert toArg f (.ok dels :: rest) = ([f], .ok)) ∧
    (∀ d, dels.length = 10000 → dels.getLast? = some d →
       historyBatch (.ok dels) insert = .ok d.timestamp ∧
       (goStringLt toArg d.timestamp = true →
          history_loop insert toArg f (.ok dels :: rest) = ([f], .ok)) ∧
       (d.timestamp ≠ "" → goStringLt toArg d.timestamp = false →
          history_loop insert toArg f (.ok dels :: rest) =
            (f :: (history_loop insert toArg d.timestamp rest).fst,
             (history_loop insert toArg d.timestamp rest).snd))) := by
  constructor
  · intro hlen
    have hb : historyBatch (.ok dels) insert = .ok ("") := by
      simp [historyBatch, hins, hlen]
    refine ⟨hb, ?_⟩
    simp [history_loop, hb]
  · intro d hlen hlast
    have hb : historyBatch (.ok dels) insert = .ok d.timestamp := by
      simp [historyBatch, hins, hlen, hlast]
    refine ⟨hb, ?_, ?_⟩
    · intro hgt
      simp [history_loop, hb, hgt]
    · intro hne hngt
      simp [history_loop, hb, hne, hngt]

theorem history_batch_cursor_spec_witness :
    (historyBatch (.ok []) insertOk = .ok ("") ∧
     history_loop insertOk ("") firstDelegation [.ok []] = ([firstDelegation], .ok)) ∧
    (historyBatch (.ok bigPage) insertOk = .ok sampleDelegation.timestamp ∧
     history_loop insertOk ("9999-12-31T23:59:59Z") firstDelegation [.ok bigPage] =
       (firstDelegation ::
          (history_loop insertOk ("9999-12-31T23:59:59Z") sampleDelegation.timestamp []).fst,
        (history_loop insertOk ("9999-12-31T23:59:59Z") sampleDelegation.timestamp []).snd)) :=
  ⟨(history_batch_cursor_spec insertOk ("") firstDelegation [] [] rfl).1 (by decide),
   ⟨((history_batch_cursor_spec insertOk ("9999-12-31T23:59:59Z") firstDelegation
        bigPage [] rfl).2 sampleDelegation bigPage_length bigPage_getLast).1,
    ((history_batch_cursor_spec insertOk ("9999-12-31T23:59:59Z") firstDelegation
        bigPage [] rfl).2 sampleDelegation bigPage_length bigPage_getLast).2.2
      (by decide) rfl⟩⟩

/-- Claim C10: with `from` empty, `History.Sync` resolves the backfill's
lower bound from the store — the most recent persisted record's
timestamp if one exists, the fixed epoch constant
`2018-06-30T19:30:27Z` if the store is empty — and a failing
`LastDelegation` lookup makes `Sync` return the wrapped error with an
empty fetch log, i.e. before any batch is fetched. -/
theorem history_sync_from_resolution
    (lastDel : Except String (Option Delegation)) (nowStr toArg : String)
    (insert : List Delegation → Option String)
    (pages : List (Except String (List Delegation)))
    (d : Delegation) (e : String) :
    firstDelegation = "2018-06-30T19:30:27Z" ∧
    (lastDel = .ok (some d) →
       history_Sync lastDel nowStr ("") toArg insert pages =
         history_loop insert (if toArg = "" then nowStr else toArg) d.timestamp pages) ∧
    (lastDel = .ok none →
       history_Sync lastDel nowStr ("") toArg insert pages =
         history_loop insert (if toArg = "" then nowStr else toArg) firstDelegation pages) ∧
    (lastDel = .error e →
       history_Sync lastDel nowStr ("") toArg insert pages =
         ([], .fail ("failed to get last delegation: " ++ e))) := by
  refine ⟨rfl, ?_, ?_, ?_⟩ <;> intro h <;> subst h <;> rfl

theorem history_sync_from_resolution_witness :
    (history_Sync (.ok (some sampleDelegation)) ("2025-01-01T00:00:00Z") ("") ("")
       insertOk [] =
       history_loop insertOk ("2025-01-01T00:00:00Z") sampleDelegation.timestamp []) ∧
    (history_Sync (.ok none) ("2025-01-01T00:00:00Z") ("") ("") insertOk [] =
       history_loop insertOk ("2025-01-01T00:00:00Z") firstDelegation []) ∧
    (history_Sync (.error ("db down")) ("2025-01-01T00:00:00Z") ("") ("") insertOk [] =
       ([], .fail ("failed to get last delegation: db down"))) :=
  ⟨(history_sync_from_resolution (.ok (some sampleDelegation)) ("2025-01-01T00:00:00Z")
      ("") insertOk [] sampleDelegation ("db down")).2.1 rfl,
   (history_sync_from_resolution (.ok none) ("2025-01-01T00:00:00Z")
      ("") insertOk [] sampleDelegation ("db down")).2.2.1 rfl,
   (history_sync_from_resolution (.error ("db down")) ("2025-01-01T00:00:00Z")
      ("") insertOk [] sampleDelegation ("db down")).2.2.2 rfl⟩
